import Mathlib

/-!
# Quizverse — Quiz Result Ingestion & Leaderboard Engine: a shallow embedding

This file embeds, in Lean 4, the quiz-submission path of the repository:

* `src/app/api/quizzes/route.ts` — the `quizSchema` zod validator, the
  `updateLeaderboardRanks` recompute, and the `POST` orchestrator;
* `src/lib/logger.ts` — the `Logger` class (`saveLog`, `info`, `error`);
* `src/app/api/ai/questions/route.ts` — `cleanJsonResponse` and its
  memoized wrapper `memoizedCleanJsonResponse`.

Modelling conventions:
* JavaScript numbers in payloads and database counters are modelled as `Int`
  (the claims under study do not depend on fractional or IEEE behaviour).
* The persistence store is modelled as explicit lists of rows; every fallible
  database primitive takes an explicit failure-injection flag, so that each
  exceptional control path of the TypeScript is a reachable branch here.
* Thrown JavaScript exceptions are modelled with `Except`; the `try/catch`
  of `POST` is the outer `match` in `POST` below.
* `Date` values are threaded as an explicit `now : Int` parameter and, in the
  logger, a `now : String` timestamp parameter.
-/

/-- A JSON value as delivered by `request.json()`: the untyped payload that
`quizSchema.parse` inspects.  Objects are association lists with distinct
keys (JavaScript object semantics). -/
inductive JsonVal where
  | null : JsonVal
  | bool (b : Bool) : JsonVal
  | num (n : Int) : JsonVal
  | str (s : String) : JsonVal
  | arr (xs : List JsonVal) : JsonVal
  | obj (fields : List (String × JsonVal)) : JsonVal
deriving Repr

/-- Property lookup on a JavaScript object (first binding wins; JSON parsing
has already collapsed duplicate keys). -/
def getField (fields : List (String × JsonVal)) (k : String) : Option JsonVal :=
  (fields.find? (fun p => p.1 = k)).map (fun p => p.2)

/-- One element of the `questions` array of a validated payload
(`quizSchema`, `src/app/api/quizzes/route.ts` lines 18–22). -/
structure Question where
  id : Int
  isCorrect : Bool
  userAnswer : String
deriving Repr, DecidableEq

/-- A payload accepted by `quizSchema` (`src/app/api/quizzes/route.ts`
lines 12–23). -/
structure QuizPayload where
  categoryId : Int
  totalQuestions : Int
  correctAnswers : Int
  incorrectAnswers : Int
  score : Int
  questions : List Question
deriving Repr, DecidableEq

/-- `z.object({ id: z.number(), isCorrect: z.boolean(), userAnswer: z.string() })`
applied to one element of the `questions` array. -/
def parseQuestion (v : JsonVal) : Except String Question :=
  match v with
  | .obj fields =>
    match getField fields "id", getField fields "isCorrect",
          getField fields "userAnswer" with
    | some (.num i), some (.bool c), some (.str a) =>
      .ok { id := i, isCorrect := c, userAnswer := a }
    | _, _, _ => .error "invalid question entry"
  | _ => .error "expected object"

/-- Element-wise validation of the `questions` array (`z.array(...)`). -/
def parseQuestions : List JsonVal → Except String (List Question)
  | [] => .ok []
  | v :: vs =>
    match parseQuestion v, parseQuestions vs with
    | .ok q, .ok qs => .ok (q :: qs)
    | .error e, _ => .error e
    | _, .error e => .error e

/-- `quizSchema.parse` (`src/app/api/quizzes/route.ts` lines 12–23): the
payload must be an object whose `categoryId`, `totalQuestions`,
`correctAnswers`, `incorrectAnswers`, `score` fields are numbers and whose
`questions` field is an array of well-typed entries.  Note the schema places
no lower bound on the numeric fields and no non-emptiness requirement on
`questions` (`z.array` without `.min`/`.nonempty`). -/
def quizSchemaParse (v : JsonVal) : Except String QuizPayload :=
  match v with
  | .obj fields =>
    match getField fields "categoryId", getField fields "totalQuestions",
          getField fields "correctAnswers", getField fields "incorrectAnswers",
          getField fields "score", getField fields "questions" with
    | some (.num cat), some (.num tot), some (.num cor), some (.num inc),
      some (.num sc), some (.arr qs) =>
      match parseQuestions qs with
      | .ok questions =>
        .ok { categoryId := cat, totalQuestions := tot, correctAnswers := cor,
              incorrectAnswers := inc, score := sc, questions := questions }
      | .error e => .error e
    | _, _, _, _, _, _ => .error "invalid quiz payload"
  | _ => .error "expected object"

/-- A `User` row.  The four `total_*` counters are the aggregate fields the
submission path increments (`src/app/api/quizzes/route.ts` lines 151–159);
`username` and `email` stand for the remaining columns, included so that the
frame property "no other user field is changed" is expressible. -/
structure User where
  id : Int
  username : String
  email : String
  total_play_count : Int
  total_score : Int
  total_questions_attempted : Int
  total_correct_answers : Int
deriving Repr, DecidableEq

/-- A `Quiz` row as created by `prisma.quiz.create`
(`src/app/api/quizzes/route.ts` lines 126–135). -/
structure Quiz where
  id : Int
  user_id : Int
  category_id : Int
  total_questions : Int
  correct_answers : Int
  incorrect_answers : Int
  score : Int
deriving Repr, DecidableEq

/-- A `UserQuestionInteraction` row as inserted by
`prisma.userQuestionInteraction.createMany`
(`src/app/api/quizzes/route.ts` lines 138–148). -/
structure Interaction where
  user_id : Int
  question_id : Int
  quiz_id : Int
  is_correct : Bool
  user_answer : String
  answered_at : Int
deriving Repr, DecidableEq

/-- Modelled from the spec: the identity-defining key of an `Interaction`
under which `skipDuplicates: true` deduplicates.  The Prisma schema
(`prisma/schema.prisma`) is not part of the sources; the spec's §4.2 "an
interaction with the same identity-defining key" is modelled as the
(user, question, quiz) triple, the natural identity of one answered question
within one quiz — deliberately excluding the `answered_at` timestamp, which
differs between resubmissions. -/
def interactionKey (r : Interaction) : Int × Int × Int :=
  (r.user_id, r.question_id, r.quiz_id)

/-- A `Leaderboard` row: at most one per user, holding the current rank. -/
structure LeaderboardEntry where
  user_id : Int
  rank : Int
deriving Repr, DecidableEq

/-- The persistence store visible to the submission path. -/
structure DB where
  users : List User
  quizzes : List Quiz
  interactions : List Interaction
  leaderboard : List LeaderboardEntry
deriving Repr, DecidableEq

/-- `prisma.user.findMany({ where: { total_play_count: { gt: 0 } } ... })`:
the qualifying users (`src/app/api/quizzes/route.ts` lines 36–48). -/
def qualifyingUsers (users : List User) : List User :=
  users.filter (fun u => 0 < u.total_play_count)

/-- The descending-score order `orderBy: { total_score: 'desc' }` sorts by:
`u` comes no later than `v` when `v`'s score is at most `u`'s. -/
def scoreGe (u v : User) : Prop := v.total_score ≤ u.total_score

instance : DecidableRel scoreGe := fun u v =>
  inferInstanceAs (Decidable (v.total_score ≤ u.total_score))

instance : IsTotal User scoreGe :=
  ⟨fun u v => (le_total v.total_score u.total_score).imp id id⟩

instance : IsTrans User scoreGe :=
  ⟨fun _ _ _ h h' => le_trans h' h⟩

/-- Stable sort by descending `total_score`: the order in which
`updateLeaderboardRanks` receives the qualifying users. -/
def sortByScoreDesc (users : List User) : List User :=
  List.insertionSort scoreGe users

/-- The qualifying users in the order the recompute walks them. -/
def rankedUsers (users : List User) : List User :=
  sortByScoreDesc (qualifyingUsers users)

/-- `prisma.leaderboard.upsert({ where: { user_id }, create: {...}, update:
{ rank } })` (`src/app/api/quizzes/route.ts` lines 52–61): update the
entry's rank when the user already has one, create it otherwise. -/
def upsertEntry (lb : List LeaderboardEntry) (uid rank : Int) :
    List LeaderboardEntry :=
  if lb.any (fun e => e.user_id = uid) then
    lb.map (fun e => if e.user_id = uid then { e with rank := rank } else e)
  else
    lb ++ [{ user_id := uid, rank := rank }]

/-- The `(user_id, rank)` pairs the recompute loop upserts: position `i` of
the descending-score ordering of qualifying users receives rank `i + 1`
(`src/app/api/quizzes/route.ts` lines 51–62). -/
def rankPairs (users : List User) : List (Int × Int) :=
  (rankedUsers users).enum.map (fun p => (p.2.id, (p.1 : Int) + 1))

/-- The rank currently stored for a user: the store's read of the single
`Leaderboard` row with that `user_id`. -/
def lbLookup (lb : List LeaderboardEntry) (uid : Int) : Option Int :=
  (lb.find? (fun e => e.user_id = uid)).map (fun e => e.rank)

/-- The `user_id` column of the leaderboard table. -/
def lbIds (lb : List LeaderboardEntry) : List Int :=
  lb.map (fun e => e.user_id)

/-- All upserts applied in sequence (the loop when no upsert fails). -/
def upsertAll (lb : List LeaderboardEntry) (ps : List (Int × Int)) :
    List LeaderboardEntry :=
  ps.foldl (fun l p => upsertEntry l p.1 p.2) lb

/-- The upsert loop with failure injection: `failAt = some k` makes the
`k`-th upsert of the sequence throw.  On failure the store keeps the writes
already performed (each earlier `await`ed upsert has committed). -/
def upsertLoop (failAt : Option Nat) (lb : List LeaderboardEntry) :
    List (Int × Int) → Nat → Except (List LeaderboardEntry) (List LeaderboardEntry)
  | [], _ => .ok lb
  | p :: rest, i =>
    if failAt = some i then .error lb
    else upsertLoop failAt (upsertEntry lb p.1 p.2) rest (i + 1)

/-- `updateLeaderboardRanks` (`src/app/api/quizzes/route.ts` lines 33–71):
fetch users with `total_play_count > 0` ordered by `total_score` descending,
then upsert rank `i + 1` for the user at position `i`.  A failure inside is
caught, logged, and rethrown as `APIError(..., 500, "LEADERBOARD_ERROR")`;
here `.error` carries the store as left by the partially executed loop. -/
def updateLeaderboardRanks (failAt : Option Nat) (db : DB) : Except DB DB :=
  match upsertLoop failAt db.leaderboard (rankPairs db.users) 0 with
  | .ok lb => .ok { db with leaderboard := lb }
  | .error lb => .error { db with leaderboard := lb }

/-- `prisma.userQuestionInteraction.createMany(..., skipDuplicates: true)`:
each batch record whose identity key already exists in the store (or earlier
in the batch) is silently skipped; the rest are inserted.  The batch never
aborts on a duplicate. -/
def createManyInteractions (store : List Interaction) :
    List Interaction → List Interaction
  | [] => store
  | r :: rs =>
    if store.any (fun s => interactionKey s = interactionKey r) then
      createManyInteractions store rs
    else
      createManyInteractions (store ++ [r]) rs

/-- The aggregate update applied to the submitting user's row
(`src/app/api/quizzes/route.ts` lines 151–159): atomic increments of the
four counters, nothing else. -/
def applyAggregate (u : User) (p : QuizPayload) : User :=
  { u with total_play_count := u.total_play_count + 1,
           total_score := u.total_score + p.score,
           total_questions_attempted :=
             u.total_questions_attempted + p.totalQuestions,
           total_correct_answers := u.total_correct_answers + p.correctAnswers }

/-- The id the store assigns to the created quiz row (autoincrement). -/
def nextQuizId (db : DB) : Int :=
  (db.quizzes.map (fun q => q.id)).foldr max 0 + 1

/-- The exceptions that can reach `POST`'s `catch` block. -/
inductive ReqErr where
  /-- An `APIError` (or subclass) with its HTTP status and error code.
  `ValidationError`/`AuthenticationError`/`APIError` live in
  `src/lib/errors.ts`, which is not among the sources; modelled from the
  spec's error taxonomy (§7): `ValidationError` is 400-class,
  `AuthenticationError` is 401-class, and a bare `APIError` carries an
  explicit status. -/
  | api (status : Int) (code : String) : ReqErr
  /-- The `ZodError` thrown by `quizSchema.parse` on a shape/type mismatch
  — not an `APIError` subclass. -/
  | zod : ReqErr
  /-- A `JsonWebTokenError` thrown by `jwt.verify` — not an `APIError`. -/
  | jwt : ReqErr
  /-- A store failure thrown by a prisma call — not an `APIError`. -/
  | db : ReqErr
deriving Repr, DecidableEq

/-- The HTTP response produced by the route. -/
inductive ApiResp where
  | success (quizId : Int) : ApiResp
  | failure (status : Int) (code : String) : ApiResp
deriving Repr, DecidableEq

/-- `POST`'s `catch` block (`src/app/api/quizzes/route.ts` lines 179–203):
an `APIError` is returned as-is via `apiResponse.error(error)`; anything
else (ZodError, jwt errors, store failures) becomes
`APIError(..., 500, "INTERNAL_SERVER_ERROR")`. -/
def catchToResp : ReqErr → ApiResp
  | .api status code => .failure status code
  | _ => .failure 500 "INTERNAL_SERVER_ERROR"

/-- The request-side inputs of one `POST` invocation.  `jwtUserId = none`
models `jwt.verify` throwing; `bodyJson = none` models `request.json()`
throwing (non-JSON body). -/
structure ReqEnv where
  token : Option String
  jwtSecret : Option String
  jwtUserId : Option Int
  bodyJson : Option JsonVal

/-- Failure injection for the store operations of one `POST` invocation. -/
structure DbFailures where
  quizCreateFails : Bool
  createManyFails : Bool
  userUpdateFails : Bool
  leaderboardFailAt : Option Nat
deriving Repr, DecidableEq

/-- No store operation fails. -/
def noFailures : DbFailures :=
  { quizCreateFails := false, createManyFails := false,
    userUpdateFails := false, leaderboardFailAt := none }

/-- The `Quiz` row `prisma.quiz.create` builds from the validated payload
(`src/app/api/quizzes/route.ts` lines 126–135). -/
def newQuizRow (db : DB) (userId : Int) (p : QuizPayload) : Quiz :=
  { id := nextQuizId db, user_id := userId, category_id := p.categoryId,
    total_questions := p.totalQuestions, correct_answers := p.correctAnswers,
    incorrect_answers := p.incorrectAnswers, score := p.score }

/-- The interaction batch `validatedBody.questions.map(...)`
(`src/app/api/quizzes/route.ts` lines 139–146). -/
def interactionBatch (userId qid now : Int) (qs : List Question) :
    List Interaction :=
  qs.map (fun q =>
    { user_id := userId, question_id := q.id, quiz_id := qid,
      is_correct := q.isCorrect, user_answer := q.userAnswer,
      answered_at := now })

/-- The user table after `prisma.user.update` applied the four atomic
increments to the submitting user's row. -/
def updatedUsers (users : List User) (userId : Int) (p : QuizPayload) :
    List User :=
  users.map (fun u => if u.id = userId then applyAggregate u p else u)

/-- The body of `POST`'s `try` block (`src/app/api/quizzes/route.ts`
lines 94–177), step by step in source order.  The `.error` payload carries
the store state at the moment the exception is thrown, so partial commits
are observable.  On success it returns the new quiz id (the route replies
`apiResponse.success({ data: { quizId: quiz.id } })`). -/
def postBody (env : ReqEnv) (fails : DbFailures) (now : Int) (db : DB) :
    Except (ReqErr × DB) (Int × DB) :=
  match env.token with
  | none => .error (.api 401 "AUTHENTICATION_ERROR", db)
  | some _ =>
  match env.jwtSecret with
  | none => .error (.api 500 "API_ERROR", db)
  | some _ =>
  match env.jwtUserId with
  | none => .error (.jwt, db)
  | some userId =>
  match env.bodyJson with
  | none => .error (.api 400 "VALIDATION_ERROR", db)
  | some raw =>
  match quizSchemaParse raw with
  | .error _ => .error (.zod, db)
  | .ok p =>
  if fails.quizCreateFails then .error (.db, db) else
  let db1 := { db with quizzes := db.quizzes ++ [newQuizRow db userId p] }
  if fails.createManyFails then .error (.db, db1) else
  let batch := interactionBatch userId (nextQuizId db) now p.questions
  let db2 := { db1 with interactions := createManyInteractions db1.interactions batch }
  if fails.userUpdateFails || !(db2.users.any (fun u => u.id = userId)) then
    .error (.db, db2)
  else
  let db3 := { db2 with users := updatedUsers db2.users userId p }
  match updateLeaderboardRanks fails.leaderboardFailAt db3 with
  | .error db4 => .error (.api 500 "LEADERBOARD_ERROR", db4)
  | .ok db4 => .ok (nextQuizId db, db4)

/-- `POST /api/quizzes` (`src/app/api/quizzes/route.ts` lines 90–204):
run the `try` body and funnel any exception through the `catch` block. -/
def POST (env : ReqEnv) (fails : DbFailures) (now : Int) (db : DB) :
    ApiResp × DB :=
  match postBody env fails now db with
  | .ok (qid, db') => (.success qid, db')
  | .error (e, db') => (catchToResp e, db')

/-! ## The logger (`src/lib/logger.ts`) -/

/-- The record `saveLog` posts to `/api/logs` (interface `LogData`).
`metadata` values and the serialized error are modelled as strings. -/
structure LogData where
  level : String
  module : String
  action : String
  message : String
  timestamp : String
  errorName : Option String
  errorStack : Option String
  metadata : List (String × String)
deriving Repr, DecidableEq

/-- The value `await fetch(...)` resolves to when it does not reject. -/
structure FetchResponse where
  ok : Bool
  body : String
deriving Repr, DecidableEq

/-- `Logger.saveLog` (`src/lib/logger.ts` lines 35–49): posts the record to
the log sink inside a `try`; a non-ok response or a rejected fetch is only
written to the console (`console.error`), never rethrown.  The sink is an
arbitrary function `LogData → Except String FetchResponse`; the returned
`Except` is the outcome of `saveLog` itself, its payload the list of console
lines it emitted. -/
def saveLog (sink : LogData → Except String FetchResponse) (d : LogData) :
    Except String (List String) :=
  match sink d with
  | .ok resp =>
    if resp.ok then .ok []
    else .ok ["Log kaydetme hatası: " ++ resp.body]
  | .error e => .ok ["Log kaydetme hatası: " ++ e]

/-- `Logger.info` (`src/lib/logger.ts` lines 187–197): builds an info-level
`LogData` with the current timestamp and hands it to `saveLog`. -/
def loggerInfo (sink : LogData → Except String FetchResponse)
    (now mod act msg : String) (metadata : List (String × String)) :
    Except String (List String) :=
  saveLog sink
    { level := "info", module := mod, action := act, message := msg,
      timestamp := now, errorName := none, errorStack := none,
      metadata := metadata }

/-- `Logger.error` (`src/lib/logger.ts` lines 211–225): builds an
error-level `LogData` (action `error`, message and name/stack taken from
the thrown `Error`) and hands it to `saveLog`. -/
def loggerError (sink : LogData → Except String FetchResponse)
    (now mod errName errMsg errStack : String)
    (metadata : List (String × String)) :
    Except String (List String) :=
  saveLog sink
    { level := "error", module := mod, action := "error", message := errMsg,
      timestamp := now, errorName := some errName,
      errorStack := some errStack, metadata := metadata }

/-! ## `cleanJsonResponse` and its memoization
(`src/app/api/ai/questions/route.ts` lines 20–38 and 73–85)

The function is a pure string transformer: strip markdown code fences, quote
bare object keys and bare identifier values, cut the text from the first
opening brace to the last closing brace, then `JSON.parse` and
`JSON.stringify` it.  Recursions over the input are written with an explicit
fuel argument (always instantiated with more fuel than the input length, so
the fuel never runs out); each scanner advances at least one character per
step, mirroring the global-regex `lastIndex` advance. -/

/-- JavaScript `\s` on the character classes exercised here (space, tab,
newline, carriage return, vertical tab, form feed). -/
def jsWs (c : Char) : Bool :=
  c == ' ' || c == '\t' || c == '\n' || c == '\r' || c == '\x0b' || c == '\x0c'

/-- First alternative of the fence regex: the literal characters of
"```json". -/
def fenceJson : List Char := "```json".toList

/-- The bare fence literal "```". -/
def fence : List Char := "```".toList

/-- `text.replace(/```json\s*|\s*```/g, "")`: at each position, a literal
"```json" plus trailing whitespace, or a whitespace run immediately followed
by "```", is deleted; otherwise the scan advances one character. -/
def stripFencesAux : Nat → List Char → List Char
  | 0, _ => []
  | _, [] => []
  | fuel + 1, c :: rest =>
    if fenceJson.isPrefixOf (c :: rest) then
      stripFencesAux fuel (((c :: rest).drop 7).dropWhile jsWs)
    else
      let r := (c :: rest).dropWhile jsWs
      if fence.isPrefixOf r then stripFencesAux fuel (r.drop 3)
      else c :: stripFencesAux fuel rest

/-- Fence removal at full fuel. -/
def stripFences (cs : List Char) : List Char :=
  stripFencesAux (cs.length + 1) cs

/-- `String.prototype.trim`: drop whitespace from both ends. -/
def jsTrim (cs : List Char) : List Char :=
  ((cs.dropWhile jsWs).reverse.dropWhile jsWs).reverse

/-- `[a-zA-Z_]`, the first character of a bare key. -/
def identStart (c : Char) : Bool := c.isAlpha || c == '_'

/-- `[a-zA-Z0-9_]`, the continuation characters of a bare identifier. -/
def identChar (c : Char) : Bool := c.isAlpha || c.isDigit || c == '_'

/-- `text.replace(/([{,]\s*)([a-zA-Z_][a-zA-Z0-9_]*)\s*:/g, '$1"$2":')`:
after an opening brace or comma (with its trailing whitespace kept), a bare
identifier followed by optional whitespace and a colon is wrapped in double
quotes; the whitespace before the colon is not in a capture group and is
dropped.  The scan resumes after the matched region. -/
def quoteKeysAux : Nat → List Char → List Char
  | 0, _ => []
  | _, [] => []
  | fuel + 1, c :: rest =>
    if c == '{' || c == ',' then
      let w := rest.takeWhile jsWs
      let r1 := rest.dropWhile jsWs
      match r1 with
      | i0 :: _ =>
        if identStart i0 then
          let ident := r1.takeWhile identChar
          let r2 := (r1.dropWhile identChar).dropWhile jsWs
          match r2 with
          | ':' :: r3 =>
            c :: (w ++ ('"' :: (ident ++ ('"' :: ':' :: quoteKeysAux fuel r3))))
          | _ => c :: quoteKeysAux fuel rest
        else c :: quoteKeysAux fuel rest
      | [] => c :: quoteKeysAux fuel rest
    else c :: quoteKeysAux fuel rest

/-- Key quoting at full fuel. -/
def quoteKeys (cs : List Char) : List Char :=
  quoteKeysAux (cs.length + 1) cs

/-- `text.replace(/:\s*([a-zA-Z][a-zA-Z0-9_]*)\s*([,}])/g, ':"$1"$2')`:
a bare letter-initial identifier standing as a value between a colon and a
comma or closing brace is wrapped in double quotes; the whitespace on both
sides of it is dropped.  The scan resumes after the matched delimiter. -/
def quoteValsAux : Nat → List Char → List Char
  | 0, _ => []
  | _, [] => []
  | fuel + 1, c :: rest =>
    if c == ':' then
      let r1 := rest.dropWhile jsWs
      match r1 with
      | i0 :: _ =>
        if i0.isAlpha then
          let ident := r1.takeWhile identChar
          let r2 := (r1.dropWhile identChar).dropWhile jsWs
          match r2 with
          | d :: r3 =>
            if d == ',' || d == '}' then
              ':' :: '"' :: (ident ++ ('"' :: d :: quoteValsAux fuel r3))
            else c :: quoteValsAux fuel rest
          | [] => c :: quoteValsAux fuel rest
        else c :: quoteValsAux fuel rest
      | [] => c :: quoteValsAux fuel rest
    else c :: quoteValsAux fuel rest

/-- Bare-value quoting at full fuel. -/
def quoteVals (cs : List Char) : List Char :=
  quoteValsAux (cs.length + 1) cs

/-- `text.match(/\{[\s\S]*\}/)`: the (greedy) region from the first opening
brace to the last closing brace after it, or `none` when no such region
exists. -/
def extractJsonBlock (cs : List Char) : Option (List Char) :=
  let pre := cs.dropWhile (fun c => !(c == '{'))
  match pre with
  | [] => none
  | _ :: _ =>
    let post := pre.reverse.dropWhile (fun c => !(c == '}'))
    match post with
    | [] => none
    | _ :: _ => some post.reverse

/-- A JavaScript JSON value (`JSON.parse` result).  Number tokens keep
their source lexeme; JavaScript would re-format the numeral through its
double representation, a difference the theorems below do not depend on.
Lone UTF-16 surrogates from `\uXXXX` escapes are mapped to U+FFFD because a
Lean `Char` cannot hold a surrogate code point. -/
inductive JVal where
  | jnull : JVal
  | jbool (b : Bool) : JVal
  | jnum (lexeme : String) : JVal
  | jstr (s : String) : JVal
  | jarr (elems : List JVal) : JVal
  | jobj (members : List (String × JVal)) : JVal
deriving Repr

/-- JSON-grammar whitespace (space, tab, line feed, carriage return). -/
def jsonWs (c : Char) : Bool :=
  c == ' ' || c == '\t' || c == '\n' || c == '\r'

/-- Skip JSON whitespace. -/
def skipWs (cs : List Char) : List Char := cs.dropWhile jsonWs

/-- The numeric value of one hex digit. -/
def hexVal? (c : Char) : Option Nat :=
  if '0' ≤ c && c ≤ '9' then some (c.toNat - 48)
  else if 'a' ≤ c && c ≤ 'f' then some (c.toNat - 87)
  else if 'A' ≤ c && c ≤ 'F' then some (c.toNat - 55)
  else none

/-- Four hex digits of a `\uXXXX` escape. -/
def parseHex4 : List Char → Option (Nat × List Char)
  | a :: b :: c :: d :: rest =>
    match hexVal? a, hexVal? b, hexVal? c, hexVal? d with
    | some x, some y, some z, some w => some (((x * 16 + y) * 16 + z) * 16 + w, rest)
    | _, _, _, _ => none
  | _ => none

/-- A code unit from a `\uXXXX` escape as a `Char`, pairing a high
surrogate with a following `\uXXXX` low surrogate; a lone surrogate
becomes U+FFFD (see `JVal`). -/
def uEscapeChar (n : Nat) (rest : List Char) : Char × List Char :=
  if 0xD800 ≤ n && n ≤ 0xDBFF then
    match rest with
    | '\\' :: 'u' :: rest2 =>
      match parseHex4 rest2 with
      | some (m, rest3) =>
        if 0xDC00 ≤ m && m ≤ 0xDFFF then
          (Char.ofNat (0x10000 + (n - 0xD800) * 0x400 + (m - 0xDC00)), rest3)
        else ('�', rest)
      | none => ('�', rest)
    | _ => ('�', rest)
  else if 0xDC00 ≤ n && n ≤ 0xDFFF then ('�', rest)
  else (Char.ofNat n, rest)

/-- The body of a JSON string literal, after the opening quote: literal
characters up to the closing quote, with the escape sequences of the JSON
grammar; unescaped control characters are a syntax error. -/
def parseStringAux : Nat → List Char → Except String (List Char × List Char)
  | 0, _ => .error "Unterminated string in JSON"
  | _, [] => .error "Unterminated string in JSON"
  | fuel + 1, c :: rest =>
    if c == '"' then .ok ([], rest)
    else if c == '\\' then
      match rest with
      | [] => .error "Unterminated string in JSON"
      | e :: rest2 =>
        let esc : Except String (Char × List Char) :=
          if e == '"' then .ok ('"', rest2)
          else if e == '\\' then .ok ('\\', rest2)
          else if e == '/' then .ok ('/', rest2)
          else if e == 'b' then .ok ('\x08', rest2)
          else if e == 'f' then .ok ('\x0c', rest2)
          else if e == 'n' then .ok ('\n', rest2)
          else if e == 'r' then .ok ('\r', rest2)
          else if e == 't' then .ok ('\t', rest2)
          else if e == 'u' then
            match parseHex4 rest2 with
            | some (n, rest3) => .ok (uEscapeChar n rest3)
            | none => .error "Bad Unicode escape in JSON"
          else .error "Bad escaped character in JSON"
        match esc with
        | .error msg => .error msg
        | .ok (ch, rest3) =>
          match parseStringAux fuel rest3 with
          | .ok (s, r) => .ok (ch :: s, r)
          | .error msg => .error msg
    else if c.toNat < 0x20 then .error "Bad control character in JSON"
    else
      match parseStringAux fuel rest with
      | .ok (s, r) => .ok (c :: s, r)
      | .error msg => .error msg

/-- A JSON number token: `-? (0 | [1-9][0-9]*) (. [0-9]+)? ([eE][+-]?[0-9]+)?`,
returned as its lexeme. -/
def parseNumber (cs : List Char) : Except String (List Char × List Char) :=
  let (neg, cs1) : List Char × List Char :=
    match cs with
    | '-' :: r => (['-'], r)
    | _ => ([], cs)
  match cs1 with
  | c :: r =>
    if !c.isDigit then .error "Unexpected token in JSON"
    else
      let (intPart, r1) : List Char × List Char :=
        if c == '0' then (['0'], r)
        else (c :: r.takeWhile Char.isDigit, r.dropWhile Char.isDigit)
      let (fracPart, r2) : List Char × List Char :=
        match r1 with
        | '.' :: r1' =>
          ('.' :: r1'.takeWhile Char.isDigit, r1'.dropWhile Char.isDigit)
        | _ => ([], r1)
      if fracPart = ['.'] then .error "Unterminated fractional number in JSON"
      else
        match r2 with
        | e :: r2' =>
          if e == 'e' || e == 'E' then
            let (sign, r3) : List Char × List Char :=
              match r2' with
              | '+' :: r3' => (['+'], r3')
              | '-' :: r3' => (['-'], r3')
              | _ => ([], r2')
            let digits := r3.takeWhile Char.isDigit
            if digits.isEmpty then .error "Exponent part is missing a number in JSON"
            else .ok (neg ++ intPart ++ fracPart ++ (e :: (sign ++ digits)),
                      r3.dropWhile Char.isDigit)
          else .ok (neg ++ intPart ++ fracPart, r2)
        | [] => .ok (neg ++ intPart ++ fracPart, r2)
  | [] => .error "Unexpected end of JSON input"

/-- JavaScript object-key insertion: a repeated key keeps its first
position but takes the later value. -/
def insertKv (kvs : List (String × JVal)) (k : String) (v : JVal) :
    List (String × JVal) :=
  if kvs.any (fun p => p.1 = k) then
    kvs.map (fun p => if p.1 = k then (k, v) else p)
  else kvs ++ [(k, v)]

mutual

/-- One JSON value starting at the head of the input (whitespace already
skipped), returning the value and the unconsumed suffix. -/
def parseValue : Nat → List Char → Except String (JVal × List Char)
  | 0, _ => .error "JSON input too deeply nested"
  | fuel + 1, cs =>
    match cs with
    | [] => .error "Unexpected end of JSON input"
    | '{' :: rest =>
      match skipWs rest with
      | '}' :: r2 => .ok (.jobj [], r2)
      | r => parseMembers fuel r []
    | '[' :: rest =>
      match skipWs rest with
      | ']' :: r2 => .ok (.jarr [], r2)
      | r => parseElems fuel r []
    | '"' :: rest =>
      match parseStringAux (rest.length + 1) rest with
      | .ok (s, r) => .ok (.jstr (String.mk s), r)
      | .error e => .error e
    | 't' :: rest =>
      if "rue".toList.isPrefixOf rest then .ok (.jbool true, rest.drop 3)
      else .error "Unexpected token in JSON"
    | 'f' :: rest =>
      if "alse".toList.isPrefixOf rest then .ok (.jbool false, rest.drop 4)
      else .error "Unexpected token in JSON"
    | 'n' :: rest =>
      if "ull".toList.isPrefixOf rest then .ok (.jnull, rest.drop 3)
      else .error "Unexpected token in JSON"
    | c :: _ =>
      if c == '-' || c.isDigit then
        match parseNumber cs with
        | .ok (lex, r) => .ok (.jnum (String.mk lex), r)
        | .error e => .error e
      else .error "Unexpected token in JSON"

/-- The members of a JSON object, starting at the first key. -/
def parseMembers : Nat → List Char → List (String × JVal) →
    Except String (JVal × List Char)
  | 0, _, _ => .error "JSON input too deeply nested"
  | fuel + 1, cs, acc =>
    match cs with
    | '"' :: rest =>
      match parseStringAux (rest.length + 1) rest with
      | .error e => .error e
      | .ok (k, r1) =>
        match skipWs r1 with
        | ':' :: r2 =>
          match parseValue fuel (skipWs r2) with
          | .error e => .error e
          | .ok (v, r3) =>
            let acc2 := insertKv acc (String.mk k) v
            match skipWs r3 with
            | ',' :: r4 => parseMembers fuel (skipWs r4) acc2
            | '}' :: r4 => .ok (.jobj acc2, r4)
            | _ => .error "Expected comma or closing token after property value in JSON"
        | _ => .error "Expected colon after property name in JSON"
    | _ => .error "Expected property name or closing token in JSON"

/-- The elements of a JSON array, starting at the first element. -/
def parseElems : Nat → List Char → List JVal →
    Except String (JVal × List Char)
  | 0, _, _ => .error "JSON input too deeply nested"
  | fuel + 1, cs, acc =>
    match parseValue fuel cs with
    | .error e => .error e
    | .ok (v, r) =>
      match skipWs r with
      | ',' :: r2 => parseElems fuel (skipWs r2) (acc ++ [v])
      | ']' :: r2 => .ok (.jarr (acc ++ [v]), r2)
      | _ => .error "Expected comma or closing token after array element in JSON"

end

/-- `JSON.parse`: one value surrounded by optional whitespace, nothing
after it. -/
def jsonParse (cs : List Char) : Except String JVal :=
  match parseValue (cs.length + 1) (skipWs cs) with
  | .error e => .error e
  | .ok (v, r) =>
    if (skipWs r).isEmpty then .ok v
    else .error "Unexpected non-whitespace character after JSON"

/-- One lowercase hex digit. -/
def hexDigit (n : Nat) : Char :=
  if n < 10 then Char.ofNat (48 + n) else Char.ofNat (87 + n)

/-- `JSON.stringify` escaping of one string character. -/
def escapeChar (c : Char) : List Char :=
  if c == '"' then ['\\', '"']
  else if c == '\\' then ['\\', '\\']
  else if c == '\x08' then ['\\', 'b']
  else if c == '\x0c' then ['\\', 'f']
  else if c == '\n' then ['\\', 'n']
  else if c == '\r' then ['\\', 'r']
  else if c == '\t' then ['\\', 't']
  else if c.toNat < 0x20 then
    ['\\', 'u', '0', '0', hexDigit (c.toNat / 16), hexDigit (c.toNat % 16)]
  else [c]

/-- `JSON.stringify` of a string value. -/
def quoteString (s : String) : String :=
  String.mk ('"' :: s.toList.foldr (fun c acc => escapeChar c ++ acc) ['"'])

mutual

/-- `JSON.stringify` (no indentation): the compact canonical text of a
parsed value. -/
def stringify : JVal → String
  | .jnull => "null"
  | .jbool true => "true"
  | .jbool false => "false"
  | .jnum lex => lex
  | .jstr s => quoteString s
  | .jarr xs => "[" ++ stringifyElems xs ++ "]"
  | .jobj kvs => "\x7b" ++ stringifyMembers kvs ++ "\x7d"

/-- Comma-separated array elements. -/
def stringifyElems : List JVal → String
  | [] => ""
  | [x] => stringify x
  | x :: y :: xs => stringify x ++ "," ++ stringifyElems (y :: xs)

/-- Comma-separated object members. -/
def stringifyMembers : List (String × JVal) → String
  | [] => ""
  | [(k, v)] => quoteString k ++ ":" ++ stringify v
  | (k, v) :: m :: kvs =>
    quoteString k ++ ":" ++ stringify v ++ "," ++ stringifyMembers (m :: kvs)

end

/-- `cleanJsonResponse` (`src/app/api/ai/questions/route.ts` lines 20–38):
strip code fences and trim, quote bare keys and bare identifier values, cut
from the first opening brace to the last closing brace, then parse and
re-serialize; any failure is rethrown with the "JSON temizleme hatası"
prefix. -/
def cleanJsonResponse (text : String) : Except String String :=
  let cleaned := quoteVals (quoteKeys (jsTrim (stripFences text.toList)))
  match extractJsonBlock cleaned with
  | none => .error "JSON temizleme hatası: JSON içeriği bulunamadı"
  | some body =>
    match jsonParse body with
    | .error e => .error ("JSON temizleme hatası: " ++ e)
    | .ok v => .ok (stringify v)

/-- One call through `memoizedCleanJsonResponse`'s closure
(`src/app/api/ai/questions/route.ts` lines 73–85): a cache hit returns the
cached string; a miss runs `cleanJsonResponse` and, when it returns (does
not throw), stores the result before returning it. -/
def memoCleanStep (cache : List (String × String)) (text : String) :
    Except String String × List (String × String) :=
  match cache.find? (fun p => p.1 = text) with
  | some p => (.ok p.2, cache)
  | none =>
    match cleanJsonResponse text with
    | .ok r => (.ok r, cache ++ [(text, r)])
    | .error e => (.error e, cache)

/-- A sequence of calls through the memoizing closure, threading the cache. -/
def memoRun (cache : List (String × String)) :
    List String → List (Except String String) × List (String × String)
  | [] => ([], cache)
  | t :: ts =>
    let step := memoCleanStep cache t
    let rest := memoRun step.2 ts
    (step.1 :: rest.1, rest.2)

/-- `memoizedCleanJsonResponse` observed over a whole call sequence: the
module-level closure starts from an empty cache and serves each call in
order; this returns the outcome of every call. -/
def memoizedCleanJsonResponse (calls : List String) :
    List (Except String String) :=
  (memoRun [] calls).1

/-! ## Concrete inputs used by the witness and counterexample theorems -/

/-- A user with two plays and 100 points. -/
def exUser1 : User :=
  { id := 1, username := "ada", email := "ada@example.com",
    total_play_count := 2, total_score := 100,
    total_questions_attempted := 5, total_correct_answers := 3 }

/-- A user who never played (not a qualifying user). -/
def exUser2 : User :=
  { id := 2, username := "bob", email := "bob@example.com",
    total_play_count := 0, total_score := 0,
    total_questions_attempted := 0, total_correct_answers := 0 }

/-- The current top scorer. -/
def exUser3 : User :=
  { id := 3, username := "cleo", email := "cleo@example.com",
    total_play_count := 1, total_score := 150,
    total_questions_attempted := 2, total_correct_answers := 2 }

/-- A store with three users, no quizzes, and an empty leaderboard. -/
def exDb : DB :=
  { users := [exUser1, exUser2, exUser3], quizzes := [],
    interactions := [], leaderboard := [] }

/-- `exDb` with stale leaderboard rows for the two qualifying users. -/
def exDbStale : DB :=
  { exDb with leaderboard := [{ user_id := 1, rank := 9 },
                              { user_id := 3, rank := 8 }] }

/-- A well-formed submission payload: two questions, one correct, 50 points. -/
def exBody : JsonVal :=
  .obj [("categoryId", .num 4), ("totalQuestions", .num 2),
        ("correctAnswers", .num 1), ("incorrectAnswers", .num 1),
        ("score", .num 50),
        ("questions", .arr
          [.obj [("id", .num 7), ("isCorrect", .bool true),
                 ("userAnswer", .str "A")],
           .obj [("id", .num 8), ("isCorrect", .bool false),
                 ("userAnswer", .str "C")]])]

/-- The typed payload `exBody` validates to. -/
def exPayload : QuizPayload :=
  { categoryId := 4, totalQuestions := 2, correctAnswers := 1,
    incorrectAnswers := 1, score := 50,
    questions := [{ id := 7, isCorrect := true, userAnswer := "A" },
                  { id := 8, isCorrect := false, userAnswer := "C" }] }

/-- A payload that is valid JSON of the right shape but carries a negative
score; `quizSchema` accepts it because `z.number()` has no lower bound. -/
def exBodyNegScore : JsonVal :=
  .obj [("categoryId", .num 4), ("totalQuestions", .num 1),
        ("correctAnswers", .num 0), ("incorrectAnswers", .num 1),
        ("score", .num (-5)),
        ("questions", .arr
          [.obj [("id", .num 7), ("isCorrect", .bool false),
                 ("userAnswer", .str "B")]])]

/-- The typed payload `exBodyNegScore` validates to. -/
def exPayloadNeg : QuizPayload :=
  { categoryId := 4, totalQuestions := 1, correctAnswers := 0,
    incorrectAnswers := 1, score := -5,
    questions := [{ id := 7, isCorrect := false, userAnswer := "B" }] }

/-- A payload whose `categoryId` is a string: a type mismatch `quizSchema`
rejects. -/
def exBodyBadType : JsonVal :=
  .obj [("categoryId", .str "sports"), ("totalQuestions", .num 1),
        ("correctAnswers", .num 0), ("incorrectAnswers", .num 1),
        ("score", .num 0),
        ("questions", .arr [])]

/-- A payload with an empty `questions` list. -/
def exBodyEmptyQuestions : JsonVal :=
  .obj [("categoryId", .num 4), ("totalQuestions", .num 0),
        ("correctAnswers", .num 0), ("incorrectAnswers", .num 0),
        ("score", .num 0), ("questions", .arr [])]

/-- A fully authenticated request environment carrying `body`. -/
def exEnv (body : JsonVal) : ReqEnv :=
  { token := some "jwt-token", jwtSecret := some "secret",
    jwtUserId := some 1, bodyJson := some body }

/-- Every binding of the memoization cache records a result
`cleanJsonResponse` actually returns. -/
def cacheValid (cache : List (String × String)) : Prop :=
  ∀ p ∈ cache, cleanJsonResponse p.1 = .ok p.2

/-! ## Theorems -/

lemma memoCleanStep_eq {cache : List (String × String)} (t : String)
    (h : cacheValid cache) :
    (memoCleanStep cache t).1 = cleanJsonResponse t ∧
      cacheValid (memoCleanStep cache t).2 := by
  unfold memoCleanStep
  cases hf : cache.find? (fun p => p.1 = t) with
  | some p =>
    have hmem : p ∈ cache := List.mem_of_find?_eq_some hf
    have hpt : p.1 = t := by simpa using List.find?_some hf
    refine ⟨?_, by simpa using h⟩
    have := h p hmem
    rw [hpt] at this
    simp [this]
  | none =>
    cases hc : cleanJsonResponse t with
    | ok r =>
      refine ⟨by simp, ?_⟩
      intro q hq
      rcases (by simpa using hq : q ∈ cache ∨ q = (t, r)) with hq' | hq'
      · exact h q hq'
      · subst hq'
        exact hc
    | error e => exact ⟨by simp, by simpa using h⟩

lemma memoRun_eq {cache : List (String × String)} (ts : List String)
    (h : cacheValid cache) :
    (memoRun cache ts).1 = ts.map cleanJsonResponse := by
  induction ts generalizing cache with
  | nil => simp [memoRun]
  | cons t ts ih =>
    obtain ⟨h1, h2⟩ := memoCleanStep_eq t h
    simp [memoRun, h1, ih h2]

/-- C10: for every sequence of calls, the memoized wrapper around
`cleanJsonResponse` returns exactly what the unmemoized function returns on
each input — the same output string, or a failure exactly when the plain
function fails; the cache never changes observable behaviour. -/
theorem memoized_cleanJsonResponse_refines (calls : List String) :
    memoizedCleanJsonResponse calls = calls.map cleanJsonResponse :=
  memoRun_eq calls (by intro p hp; cases hp)

/-- C9: the logging operations on the submission path are total and
non-failing: whatever the log sink does on any input — reject, return a
non-ok response, or succeed — `Logger.info` and `Logger.error` return
normally (any sink failure is reduced to console output). -/
theorem logger_never_fails (sink : LogData → Except String FetchResponse)
    (now mod act msg errName errMsg errStack : String)
    (metadata : List (String × String)) :
    (∃ out, loggerInfo sink now mod act msg metadata = .ok out) ∧
    (∃ out, loggerError sink now mod errName errMsg errStack metadata = .ok out) := by
  constructor
  · unfold loggerInfo saveLog
    cases sink _ with
    | ok resp => cases hr : resp.ok <;> simp [hr]
    | error e => simp
  · unfold loggerError saveLog
    cases sink _ with
    | ok resp => cases hr : resp.ok <;> simp [hr]
    | error e => simp

lemma createMany_mem_store {store : List Interaction}
    (batch : List Interaction) {s : Interaction} (hs : s ∈ store) :
    s ∈ createManyInteractions store batch := by
  induction batch generalizing store with
  | nil => simpa [createManyInteractions] using hs
  | cons r rs ih =>
    unfold createManyInteractions
    by_cases hdup : store.any (fun t => interactionKey t = interactionKey r)
    · simp only [hdup, if_true]
      exact ih hs
    · simp only [hdup, if_false]
      exact ih (List.mem_append_left _ hs)

lemma createMany_key_covered {store : List Interaction}
    (batch : List Interaction) {r : Interaction} (hr : r ∈ batch) :
    ∃ s ∈ createManyInteractions store batch,
      interactionKey s = interactionKey r := by
  induction batch generalizing store with
  | nil => cases hr
  | cons b bs ih =>
    rcases List.mem_cons.mp hr with hb | hb
    · subst hb
      unfold createManyInteractions
      by_cases hdup : store.any (fun t => interactionKey t = interactionKey r)
      · simp only [hdup, if_true]
        rcases List.any_eq_true.mp hdup with ⟨s, hs, hkey⟩
        exact ⟨s, createMany_mem_store bs hs, by simpa using hkey⟩
      · simp only [hdup, if_false]
        exact ⟨r, createMany_mem_store bs (List.mem_append_right _ (by simp)),
               rfl⟩
    · unfold createManyInteractions
      by_cases hdup : store.any (fun t => interactionKey t = interactionKey b)
      · simp only [hdup, if_true]; exact ih hb
      · simp only [hdup, if_false]; exact ih hb

lemma createMany_all_dups {store : List Interaction}
    (batch : List Interaction)
    (h : ∀ r ∈ batch, ∃ s ∈ store, interactionKey s = interactionKey r) :
    createManyInteractions store batch = store := by
  induction batch with
  | nil => rfl
  | cons r rs ih =>
    unfold createManyInteractions
    rcases h r (by simp) with ⟨s, hs, hkey⟩
    have hdup : store.any (fun t => interactionKey t = interactionKey r) := by
      exact List.any_eq_true.mpr ⟨s, hs, by simpa using hkey⟩
    simp only [hdup, if_true]
    exact ih (fun r' hr' => h r' (List.mem_cons_of_mem _ hr'))

/-- C6: the bulk interaction insert is idempotent under duplicate records.
Records whose identity-defining key already exists in the store are
silently skipped (a fully duplicate batch leaves the store unchanged, with
no abort), and resubmitting a batch with the same identity keys — e.g. the
identical submission re-sent, with only the fresh `answered_at` timestamps
differing — adds no interaction row. -/
theorem interactions_bulk_insert_idempotent
    (store batch batch' : List Interaction)
    (hkeys : batch'.map interactionKey = batch.map interactionKey) :
    createManyInteractions (createManyInteractions store batch) batch' =
      createManyInteractions store batch ∧
    ∀ store2 batch2 : List Interaction,
      (∀ r ∈ batch2, ∃ s ∈ store2, interactionKey s = interactionKey r) →
      createManyInteractions store2 batch2 = store2 := by
  constructor
  · apply createMany_all_dups
    intro r' hr'
    have : interactionKey r' ∈ batch.map interactionKey := by
      rw [← hkeys]
      exact List.mem_map_of_mem _ hr'
    rcases List.mem_map.mp this with ⟨r, hr, hkey⟩
    rcases @createMany_key_covered store batch r hr with ⟨s, hsmem, hskey⟩
    exact ⟨s, hsmem, by rw [hskey, hkey]⟩
  · intro store2 batch2 h
    exact createMany_all_dups batch2 h

/-- Witness for C6: the two-question batch of `exPayload`, resubmitted with
a later timestamp, leaves the interaction table unchanged. -/
theorem interactions_bulk_insert_idempotent_witness :
    createManyInteractions
        (createManyInteractions [] (interactionBatch 1 1 1000 exPayload.questions))
        (interactionBatch 1 1 2000 exPayload.questions) =
      createManyInteractions [] (interactionBatch 1 1 1000 exPayload.questions) ∧
    ∀ store2 batch2 : List Interaction,
      (∀ r ∈ batch2, ∃ s ∈ store2, interactionKey s = interactionKey r) →
      createManyInteractions store2 batch2 = store2 :=
  interactions_bulk_insert_idempotent [] (interactionBatch 1 1 1000 exPayload.questions)
    (interactionBatch 1 1 2000 exPayload.questions) (by decide)

lemma upsertLoop_none (ps : List (Int × Int)) :
    ∀ (lb : List LeaderboardEntry) (i : Nat),
      upsertLoop none lb ps i = .ok (upsertAll lb ps) := by
  induction ps with
  | nil => intro lb i; rfl
  | cons p rest ih =>
    intro lb i
    simpa [upsertLoop, upsertAll] using ih (upsertEntry lb p.1 p.2) (i + 1)

lemma updateLeaderboardRanks_none (db : DB) :
    updateLeaderboardRanks none db =
      .ok { db with
            leaderboard := upsertAll db.leaderboard (rankPairs db.users) } := by
  simp [updateLeaderboardRanks, upsertLoop_none]

lemma upsertLoop_fail (ps : List (Int × Int)) :
    ∀ (lb : List LeaderboardEntry) (i k : Nat), i ≤ k → k - i < ps.length →
      upsertLoop (some k) lb ps i =
        .error (upsertAll lb (ps.take (k - i))) := by
  induction ps with
  | nil => intro lb i k _ h; simp at h
  | cons p rest ih =>
    intro lb i k hik hlt
    by_cases hk : k = i
    · subst hk
      simp [upsertLoop, upsertAll]
    · have hik' : i + 1 ≤ k := by omega
      have hlt' : k - (i + 1) < rest.length := by
        simp only [List.length_cons] at hlt; omega
      have htake : (p :: rest).take (k - i) = p :: rest.take (k - (i + 1)) := by
        have : k - i = (k - (i + 1)) + 1 := by omega
        simp [this]
      have hne : ¬ (some k = some i) := by simp [hk]
      simp only [upsertLoop, hne, if_false, htake, upsertAll, List.foldl_cons]
      exact ih (upsertEntry lb p.1 p.2) (i + 1) k hik' hlt'

lemma updateLeaderboardRanks_fail (db : DB) (k : Nat)
    (hk : k < (rankPairs db.users).length) :
    updateLeaderboardRanks (some k) db =
      .error { db with
               leaderboard :=
                 upsertAll db.leaderboard ((rankPairs db.users).take k) } := by
  have := upsertLoop_fail (rankPairs db.users) db.leaderboard 0 k (by omega)
    (by simpa using hk)
  simp only [Nat.sub_zero] at this
  simp [updateLeaderboardRanks, this]

/-- C5: if the initial `prisma.quiz.create` fails, the whole operation
aborts with no partial state: the store is returned exactly as it was — no
quiz row, no interaction row, no aggregate increment, no leaderboard write
— and the caller gets an error response. -/
theorem quiz_create_failure_aborts_cleanly
    (env : ReqEnv) (fails : DbFailures) (now : Int) (db : DB)
    (tk sec : String) (uid : Int) (raw : JsonVal) (p : QuizPayload)
    (h1 : env.token = some tk) (h2 : env.jwtSecret = some sec)
    (h3 : env.jwtUserId = some uid) (h4 : env.bodyJson = some raw)
    (h5 : quizSchemaParse raw = .ok p)
    (h6 : fails.quizCreateFails = true) :
    POST env fails now db = (.failure 500 "INTERNAL_SERVER_ERROR", db) := by
  simp [POST, postBody, h1, h2, h3, h4, h5, h6, catchToResp]

/-- Witness for C5: the quiz-row write fails on a concrete well-formed
submission and the store comes back untouched. -/
theorem quiz_create_failure_aborts_cleanly_witness :
    POST (exEnv exBody)
        { quizCreateFails := true, createManyFails := false,
          userUpdateFails := false, leaderboardFailAt := none } 1000 exDb =
      (.failure 500 "INTERNAL_SERVER_ERROR", exDb) :=
  quiz_create_failure_aborts_cleanly (exEnv exBody)
    { quizCreateFails := true, createManyFails := false,
      userUpdateFails := false, leaderboardFailAt := none } 1000 exDb
    "jwt-token" "secret" 1 exBody exPayload rfl rfl rfl rfl rfl rfl

/-- Counterexample to C3 as stated: a payload whose `categoryId` has the
wrong type is rejected by the schema, yet the response is a 500-class
`INTERNAL_SERVER_ERROR` — not the claimed 400-class `ValidationError` —
because the `ZodError` thrown by `quizSchema.parse` is not an `APIError`
and falls to the generic branch of the `catch` block. -/
theorem schema_mismatch_counterexample :
    quizSchemaParse exBodyBadType = .error "invalid quiz payload" ∧
    POST (exEnv exBodyBadType) noFailures 1000 exDb =
      (.failure 500 "INTERNAL_SERVER_ERROR", exDb) := by
  constructor
  · rfl
  · rfl

/-- C3 amended: a payload whose shape or types mismatch the schema still
aborts before any write — the store is returned unchanged — but the
failure surfaces as a 500-class `INTERNAL_SERVER_ERROR`, not a 400-class
`ValidationError`; only a request body that fails JSON parsing produces the
400-class `ValidationError`. -/
theorem schema_mismatch_aborts_before_write
    (env : ReqEnv) (fails : DbFailures) (now : Int) (db : DB)
    (tk sec : String) (uid : Int)
    (h1 : env.token = some tk) (h2 : env.jwtSecret = some sec)
    (h3 : env.jwtUserId = some uid) :
    (∀ (raw : JsonVal) (e : String), env.bodyJson = some raw →
      quizSchemaParse raw = .error e →
      POST env fails now db = (.failure 500 "INTERNAL_SERVER_ERROR", db)) ∧
    (env.bodyJson = none →
      POST env fails now db = (.failure 400 "VALIDATION_ERROR", db)) := by
  constructor
  · intro raw e h4 h5
    simp [POST, postBody, h1, h2, h3, h4, h5, catchToResp]
  · intro h4
    simp [POST, postBody, h1, h2, h3, h4, catchToResp]

/-- Witness for the amended C3: a concrete ill-typed payload aborts with a
500 before any write, and a concrete unparseable body gets the 400. -/
theorem schema_mismatch_aborts_before_write_witness :
    (∀ (raw : JsonVal) (e : String),
      (exEnv exBodyBadType).bodyJson = some raw →
      quizSchemaParse raw = .error e →
      POST (exEnv exBodyBadType) noFailures 1000 exDb =
        (.failure 500 "INTERNAL_SERVER_ERROR", exDb)) ∧
    ((exEnv exBodyBadType).bodyJson = none →
      POST (exEnv exBodyBadType) noFailures 1000 exDb =
        (.failure 400 "VALIDATION_ERROR", exDb)) :=
  schema_mismatch_aborts_before_write (exEnv exBodyBadType) noFailures 1000
    exDb "jwt-token" "secret" 1 rfl rfl rfl

/-- The fully successful run of the `try` body: every guard passes, every
store write succeeds, and the final state reflects the quiz row, the
deduplicated interaction batch, the aggregate increments and the recomputed
leaderboard. -/
lemma postBody_ok (env : ReqEnv) (fails : DbFailures) (now : Int) (db : DB)
    (tk sec : String) (uid : Int) (raw : JsonVal) (p : QuizPayload)
    (h1 : env.token = some tk) (h2 : env.jwtSecret = some sec)
    (h3 : env.jwtUserId = some uid) (h4 : env.bodyJson = some raw)
    (h5 : quizSchemaParse raw = .ok p)
    (h6 : fails.quizCreateFails = false) (h7 : fails.createManyFails = false)
    (h8 : fails.userUpdateFails = false)
    (h9 : db.users.any (fun u => u.id = uid) = true)
    (h10 : fails.leaderboardFailAt = none) :
    postBody env fails now db = .ok (nextQuizId db,
      { users := updatedUsers db.users uid p,
        quizzes := db.quizzes ++ [newQuizRow db uid p],
        interactions := createManyInteractions db.interactions
          (interactionBatch uid (nextQuizId db) now p.questions),
        leaderboard := upsertAll db.leaderboard
          (rankPairs (updatedUsers db.users uid p)) }) := by
  simp [postBody, h1, h2, h3, h4, h5, h6, h7, h8, h9, h10,
        updateLeaderboardRanks_none]

/-- Counterexample to C1 as stated: a concrete run in which the quiz row,
the interaction batch and the aggregate update have all committed (visible
in the returned store) and only the leaderboard recompute fails — yet the
response is a 500 `LEADERBOARD_ERROR`, not a success carrying the quiz id:
the `APIError` rethrown by `updateLeaderboardRanks` propagates to `POST`'s
`catch` block, which turns it into an error response. -/
theorem leaderboard_failure_fails_request_counterexample :
    (POST (exEnv exBody)
        { quizCreateFails := false, createManyFails := false,
          userUpdateFails := false, leaderboardFailAt := some 0 }
        1000 exDb).1 = .failure 500 "LEADERBOARD_ERROR" ∧
    (POST (exEnv exBody)
        { quizCreateFails := false, createManyFails := false,
          userUpdateFails := false, leaderboardFailAt := some 0 }
        1000 exDb).2.quizzes = [newQuizRow exDb 1 exPayload] ∧
    (POST (exEnv exBody)
        { quizCreateFails := false, createManyFails := false,
          userUpdateFails := false, leaderboardFailAt := some 0 }
        1000 exDb).2.users = updatedUsers exDb.users 1 exPayload ∧
    (POST (exEnv exBody)
        { quizCreateFails := false, createManyFails := false,
          userUpdateFails := false, leaderboardFailAt := some 0 }
        1000 exDb).2.interactions =
      interactionBatch 1 1 1000 exPayload.questions := by
  refine ⟨by decide, by decide, by decide, by decide⟩

/-- C1 amended: when the quiz row, interaction batch and aggregate update
have all succeeded and the leaderboard recompute then fails, the request
**does** fail: `POST` answers with the 500-class `LEADERBOARD_ERROR`
response instead of a success carrying the quiz id.  The already-committed
quiz, interaction and aggregate writes do stand (they are visible in the
final store), and the partially executed recompute keeps the upserts made
before the failure. -/
theorem leaderboard_failure_error_response
    (env : ReqEnv) (fails : DbFailures) (now : Int) (db : DB)
    (tk sec : String) (uid : Int) (raw : JsonVal) (p : QuizPayload) (k : Nat)
    (h1 : env.token = some tk) (h2 : env.jwtSecret = some sec)
    (h3 : env.jwtUserId = some uid) (h4 : env.bodyJson = some raw)
    (h5 : quizSchemaParse raw = .ok p)
    (h6 : fails.quizCreateFails = false) (h7 : fails.createManyFails = false)
    (h8 : fails.userUpdateFails = false)
    (h9 : db.users.any (fun u => u.id = uid) = true)
    (h10 : fails.leaderboardFailAt = some k)
    (hk : k < (rankPairs (updatedUsers db.users uid p)).length) :
    POST env fails now db =
      (.failure 500 "LEADERBOARD_ERROR",
       { users := updatedUsers db.users uid p,
         quizzes := db.quizzes ++ [newQuizRow db uid p],
         interactions := createManyInteractions db.interactions
           (interactionBatch uid (nextQuizId db) now p.questions),
         leaderboard := upsertAll db.leaderboard
           ((rankPairs (updatedUsers db.users uid p)).take k) }) := by
  have hfail := updateLeaderboardRanks_fail
    { users := updatedUsers db.users uid p,
      quizzes := db.quizzes ++ [newQuizRow db uid p],
      interactions := createManyInteractions db.interactions
        (interactionBatch uid (nextQuizId db) now p.questions),
      leaderboard := db.leaderboard } k (by simpa using hk)
  simp [POST, postBody, h1, h2, h3, h4, h5, h6, h7, h8, h9, h10,
        catchToResp] at hfail ⊢
  simp [hfail]

/-- Witness for the amended C1: the concrete run of the counterexample,
with the full final store spelled out. -/
theorem leaderboard_failure_error_response_witness :
    POST (exEnv exBody)
        { quizCreateFails := false, createManyFails := false,
          userUpdateFails := false, leaderboardFailAt := some 0 }
        1000 exDb =
      (.failure 500 "LEADERBOARD_ERROR",
       { users := updatedUsers exDb.users 1 exPayload,
         quizzes := exDb.quizzes ++ [newQuizRow exDb 1 exPayload],
         interactions := createManyInteractions exDb.interactions
           (interactionBatch 1 (nextQuizId exDb) 1000 exPayload.questions),
         leaderboard := upsertAll exDb.leaderboard
           ((rankPairs (updatedUsers exDb.users 1 exPayload)).take 0) }) :=
  leaderboard_failure_error_response (exEnv exBody)
    { quizCreateFails := false, createManyFails := false,
      userUpdateFails := false, leaderboardFailAt := some 0 }
    1000 exDb "jwt-token" "secret" 1 exBody exPayload 0
    rfl rfl rfl rfl rfl rfl rfl rfl (by decide) rfl (by decide)

/-- Counterexample to C4's "never decremented" part: `z.number()` places no
lower bound on `score`, so a payload with a negative score passes
validation, the submission succeeds, and the aggregate update *decrements*
the user's `total_score`. -/
theorem aggregate_decrement_counterexample :
    quizSchemaParse exBodyNegScore = .ok exPayloadNeg ∧
    (POST (exEnv exBodyNegScore) noFailures 1000 exDb).1 = .success 1 ∧
    ∃ u ∈ (POST (exEnv exBodyNegScore) noFailures 1000 exDb).2.users,
      u.id = exUser1.id ∧ u.total_score < exUser1.total_score := by
  refine ⟨rfl, by decide, by decide⟩

/-- C4 amended: on every successful submission the aggregate update
increments the submitting user's `total_play_count` by 1, `total_score` by
the payload's score, `total_questions_attempted` by its totalQuestions and
`total_correct_answers` by its correctAnswers; it changes no other field of
that user's row and no other user's row.  But the counters are only
guaranteed not to decrease when the payload's numeric fields are
nonnegative — validation does not enforce that, so a negative payload value
decrements the corresponding counter. -/
theorem aggregate_update_exact_increments
    (env : ReqEnv) (fails : DbFailures) (now : Int) (db : DB)
    (tk sec : String) (uid : Int) (raw : JsonVal) (p : QuizPayload)
    (h1 : env.token = some tk) (h2 : env.jwtSecret = some sec)
    (h3 : env.jwtUserId = some uid) (h4 : env.bodyJson = some raw)
    (h5 : quizSchemaParse raw = .ok p)
    (h6 : fails.quizCreateFails = false) (h7 : fails.createManyFails = false)
    (h8 : fails.userUpdateFails = false)
    (h9 : db.users.any (fun u => u.id = uid) = true)
    (h10 : fails.leaderboardFailAt = none) :
    ∃ db', POST env fails now db = (.success (nextQuizId db), db') ∧
      db'.users = updatedUsers db.users uid p ∧
      (∀ u : User,
        (applyAggregate u p).total_play_count = u.total_play_count + 1 ∧
        (applyAggregate u p).total_score = u.total_score + p.score ∧
        (applyAggregate u p).total_questions_attempted =
          u.total_questions_attempted + p.totalQuestions ∧
        (applyAggregate u p).total_correct_answers =
          u.total_correct_answers + p.correctAnswers ∧
        (applyAggregate u p).id = u.id ∧
        (applyAggregate u p).username = u.username ∧
        (applyAggregate u p).email = u.email) ∧
      (∀ u ∈ db.users, u.id ≠ uid → u ∈ db'.users) ∧
      (0 ≤ p.score → 0 ≤ p.totalQuestions → 0 ≤ p.correctAnswers →
        ∀ (i : Nat) (h : i < db.users.length) (h' : i < db'.users.length),
          (db.users[i]).total_play_count ≤ (db'.users[i]).total_play_count ∧
          (db.users[i]).total_score ≤ (db'.users[i]).total_score ∧
          (db.users[i]).total_questions_attempted ≤
            (db'.users[i]).total_questions_attempted ∧
          (db.users[i]).total_correct_answers ≤
            (db'.users[i]).total_correct_answers) := by
  refine ⟨{ users := updatedUsers db.users uid p,
            quizzes := db.quizzes ++ [newQuizRow db uid p],
            interactions := createManyInteractions db.interactions
              (interactionBatch uid (nextQuizId db) now p.questions),
            leaderboard := upsertAll db.leaderboard
              (rankPairs (updatedUsers db.users uid p)) },
         ?_, rfl, ?_, ?_, ?_⟩
  · simp [POST, postBody_ok env fails now db tk sec uid raw p h1 h2 h3 h4 h5
      h6 h7 h8 h9 h10]
  · intro u
    exact ⟨rfl, rfl, rfl, rfl, rfl, rfl, rfl⟩
  · intro u hu hne
    refine List.mem_map.mpr ⟨u, hu, ?_⟩
    simp [hne]
  · intro hs hq hc i h h'
    simp only [updatedUsers, List.getElem_map]
    by_cases hid : (db.users[i]).id = uid
    · simp only [hid, if_true, applyAggregate]
      refine ⟨by omega, by omega, by omega, by omega⟩
    · simp only [hid, if_false]
      exact ⟨le_refl _, le_refl _, le_refl _, le_refl _⟩

/-- Witness for the amended C4: the concrete successful submission of
`exBody` by user 1. -/
theorem aggregate_update_exact_increments_witness :
    ∃ db', POST (exEnv exBody) noFailures 1000 exDb =
        (.success (nextQuizId exDb), db') ∧
      db'.users = updatedUsers exDb.users 1 exPayload ∧
      (∀ u : User,
        (applyAggregate u exPayload).total_play_count = u.total_play_count + 1 ∧
        (applyAggregate u exPayload).total_score = u.total_score + exPayload.score ∧
        (applyAggregate u exPayload).total_questions_attempted =
          u.total_questions_attempted + exPayload.totalQuestions ∧
        (applyAggregate u exPayload).total_correct_answers =
          u.total_correct_answers + exPayload.correctAnswers ∧
        (applyAggregate u exPayload).id = u.id ∧
        (applyAggregate u exPayload).username = u.username ∧
        (applyAggregate u exPayload).email = u.email) ∧
      (∀ u ∈ exDb.users, u.id ≠ 1 → u ∈ db'.users) ∧
      (0 ≤ exPayload.score → 0 ≤ exPayload.totalQuestions →
        0 ≤ exPayload.correctAnswers →
        ∀ (i : Nat) (h : i < exDb.users.length) (h' : i < db'.users.length),
          (exDb.users[i]).total_play_count ≤ (db'.users[i]).total_play_count ∧
          (exDb.users[i]).total_score ≤ (db'.users[i]).total_score ∧
          (exDb.users[i]).total_questions_attempted ≤
            (db'.users[i]).total_questions_attempted ∧
          (exDb.users[i]).total_correct_answers ≤
            (db'.users[i]).total_correct_answers) :=
  aggregate_update_exact_increments (exEnv exBody) noFailures 1000 exDb
    "jwt-token" "secret" 1 exBody exPayload
    rfl rfl rfl rfl rfl rfl rfl rfl (by decide) rfl

lemma mem_lbIds_iff_any (lb : List LeaderboardEntry) (uid : Int) :
    uid ∈ lbIds lb ↔ lb.any (fun e => e.user_id = uid) = true := by
  rw [List.any_eq_true]
  constructor
  · intro h
    rcases List.mem_map.mp h with ⟨e, he, hid⟩
    exact ⟨e, he, by simp [hid]⟩
  · rintro ⟨e, he, hid⟩
    exact List.mem_map.mpr ⟨e, he, by simpa using hid⟩

lemma lbLookup_map_update {lb : List LeaderboardEntry} {uid uid' r : Int}
    (hne : uid' ≠ uid) :
    lbLookup (lb.map (fun e =>
        if e.user_id = uid then { e with rank := r } else e)) uid' =
      lbLookup lb uid' := by
  induction lb with
  | nil => rfl
  | cons e es ih =>
    by_cases he : e.user_id = uid
    · have hp' : ¬ (e.user_id = uid') := fun h => hne (h.symm.trans he)
      have hp : ¬ (({ e with rank := r } : LeaderboardEntry).user_id = uid') := hp'
      have hhead : (if e.user_id = uid then ({ e with rank := r } : LeaderboardEntry) else e) =
          { e with rank := r } := if_pos he
      simp only [List.map_cons, hhead, lbLookup]
      rw [List.find?_cons_of_neg _ (by simpa using hp),
          List.find?_cons_of_neg _ (by simpa using hp')]
      exact ih
    · simp only [List.map_cons, he, if_false, lbLookup]
      by_cases hp : e.user_id = uid'
      · rw [List.find?_cons_of_pos _ (by simpa using hp),
            List.find?_cons_of_pos _ (by simpa using hp)]
      · rw [List.find?_cons_of_neg _ (by simpa using hp),
            List.find?_cons_of_neg _ (by simpa using hp)]
        exact ih

lemma lbLookup_map_update_hit {lb : List LeaderboardEntry} {uid r : Int}
    (h : lb.any (fun e => e.user_id = uid) = true) :
    lbLookup (lb.map (fun e =>
        if e.user_id = uid then { e with rank := r } else e)) uid = some r := by
  induction lb with
  | nil => simp at h
  | cons e es ih =>
    by_cases he : e.user_id = uid
    · simp only [List.map_cons, he, if_true, lbLookup]
      rw [List.find?_cons_of_pos _ (by simp)]
      rfl
    · simp only [List.map_cons, he, if_false, lbLookup]
      rw [List.find?_cons_of_neg _ (by simpa using he)]
      have h' : es.any (fun e => e.user_id = uid) = true := by
        rcases List.any_eq_true.mp h with ⟨x, hx, hpx⟩
        rcases List.mem_cons.mp hx with hx' | hx'
        · exact absurd (by simpa using hpx) (hx' ▸ he)
        · exact List.any_eq_true.mpr ⟨x, hx', hpx⟩
      exact ih h'

/-- The store's read-back of one upsert: the target user now holds the
written rank, every other user's row is untouched. -/
lemma lbLookup_upsert (lb : List LeaderboardEntry) (uid r uid' : Int) :
    lbLookup (upsertEntry lb uid r) uid' =
      if uid' = uid then some r else lbLookup lb uid' := by
  by_cases hany : lb.any (fun e => e.user_id = uid) = true
  · have hup : upsertEntry lb uid r =
        lb.map (fun e => if e.user_id = uid then { e with rank := r } else e) := by
      simp [upsertEntry, hany]
    rw [hup]
    by_cases h' : uid' = uid
    · subst h'
      rw [if_pos rfl]
      exact lbLookup_map_update_hit hany
    · rw [if_neg h']
      exact lbLookup_map_update h'
  · have hup : upsertEntry lb uid r = lb ++ [{ user_id := uid, rank := r }] := by
      simp [upsertEntry, hany]
    have hnone : lb.find? (fun e => e.user_id = uid) = none := by
      rw [List.find?_eq_none]
      intro e he
      exact (List.any_eq_false.mp (Bool.eq_false_iff.mpr hany)) e he
    rw [hup]
    by_cases h' : uid' = uid
    · subst h'
      simp [lbLookup, List.find?_append, hnone]
    · rw [if_neg h']
      have hsing : List.find? (fun e => e.user_id = uid')
          [({ user_id := uid, rank := r } : LeaderboardEntry)] = none := by
        simp [List.find?, Ne.symm h']
      simp only [lbLookup, List.find?_append, hsing]
      cases List.find? (fun e => decide (e.user_id = uid')) lb <;> rfl

lemma lbLookup_upsertAll_not_mem (ps : List (Int × Int)) :
    ∀ (lb : List LeaderboardEntry) (uid : Int), uid ∉ ps.map Prod.fst →
      lbLookup (upsertAll lb ps) uid = lbLookup lb uid := by
  induction ps with
  | nil => intro lb uid _; rfl
  | cons p rest ih =>
    intro lb uid h
    have h1 : uid ∉ rest.map Prod.fst := fun hm => h (by simp [hm])
    have h2 : uid ≠ p.1 := fun he => h (by simp [he])
    show lbLookup (upsertAll (upsertEntry lb p.1 p.2) rest) uid = _
    rw [ih _ _ h1, lbLookup_upsert, if_neg h2]

lemma lbLookup_upsertAll_mem (ps : List (Int × Int)) :
    ∀ (lb : List LeaderboardEntry) (uid r : Int),
      (ps.map Prod.fst).Nodup → (uid, r) ∈ ps →
      lbLookup (upsertAll lb ps) uid = some r := by
  induction ps with
  | nil => intro lb uid r _ h; cases h
  | cons p rest ih =>
    intro lb uid r hnd hmem
    have hnd' : (rest.map Prod.fst).Nodup := (List.nodup_cons.mp hnd).2
    rcases List.mem_cons.mp hmem with he | he
    · subst he
      have hnot : uid ∉ rest.map Prod.fst := by
        simpa using (List.nodup_cons.mp hnd).1
      show lbLookup (upsertAll (upsertEntry lb uid r) rest) uid = some r
      rw [lbLookup_upsertAll_not_mem rest _ _ hnot, lbLookup_upsert, if_pos rfl]
    · exact ih _ _ _ hnd' he

lemma lbIds_upsert (lb : List LeaderboardEntry) (uid r : Int) :
    lbIds (upsertEntry lb uid r) =
      if uid ∈ lbIds lb then lbIds lb else lbIds lb ++ [uid] := by
  by_cases hany : lb.any (fun e => e.user_id = uid) = true
  · have hmem : uid ∈ lbIds lb := (mem_lbIds_iff_any lb uid).mpr hany
    rw [if_pos hmem]
    simp only [upsertEntry, hany, if_true, lbIds, List.map_map]
    apply List.map_congr_left
    intro e _
    by_cases he : e.user_id = uid <;> simp [he]
  · have hmem : uid ∉ lbIds lb := fun hm =>
      hany ((mem_lbIds_iff_any lb uid).mp hm)
    rw [if_neg hmem]
    simp [upsertEntry, hany, lbIds]

lemma lbIds_upsert_nodup {lb : List LeaderboardEntry} {uid r : Int}
    (h : (lbIds lb).Nodup) : (lbIds (upsertEntry lb uid r)).Nodup := by
  rw [lbIds_upsert]
  by_cases hm : uid ∈ lbIds lb
  · rwa [if_pos hm]
  · rw [if_neg hm, List.nodup_append]
    refine ⟨h, List.nodup_singleton _, ?_⟩
    intro a ha hb
    rcases (by simpa using hb : a = uid) with rfl
    exact hm ha

lemma mem_lbIds_upsertAll (ps : List (Int × Int)) :
    ∀ (lb : List LeaderboardEntry) (x : Int),
      x ∈ lbIds (upsertAll lb ps) ↔ x ∈ lbIds lb ∨ x ∈ ps.map Prod.fst := by
  induction ps with
  | nil => intro lb x; simp [upsertAll]
  | cons p rest ih =>
    intro lb x
    show x ∈ lbIds (upsertAll (upsertEntry lb p.1 p.2) rest) ↔ _
    rw [ih]
    rw [lbIds_upsert]
    by_cases hp : p.1 ∈ lbIds lb
    · rw [if_pos hp]
      constructor
      · rintro (h | h)
        · exact Or.inl h
        · exact Or.inr (by simp [h])
      · rintro (h | h)
        · exact Or.inl h
        · rcases (by simpa using h : x = p.1 ∨ x ∈ rest.map Prod.fst) with h' | h'
          · exact Or.inl (h' ▸ hp)
          · exact Or.inr h'
    · rw [if_neg hp]
      constructor
      · rintro (h | h)
        · rcases List.mem_append.mp h with h' | h'
          · exact Or.inl h'
          · exact Or.inr (by simpa using Or.inl (by simpa using h'))
        · exact Or.inr (by simp [h])
      · rintro (h | h)
        · exact Or.inl (List.mem_append_left _ h)
        · rcases (by simpa using h : x = p.1 ∨ x ∈ rest.map Prod.fst) with h' | h'
          · exact Or.inl (List.mem_append_right _ (by simp [h']))
          · exact Or.inr h'

lemma nodup_lbIds_upsertAll (ps : List (Int × Int)) :
    ∀ (lb : List LeaderboardEntry), (lbIds lb).Nodup →
      (lbIds (upsertAll lb ps)).Nodup := by
  induction ps with
  | nil => intro lb h; exact h
  | cons p rest ih =>
    intro lb h
    exact ih _ (lbIds_upsert_nodup h)

lemma lbLookup_mem_self {lb : List LeaderboardEntry} {e : LeaderboardEntry}
    (hnd : (lbIds lb).Nodup) (he : e ∈ lb) :
    lbLookup lb e.user_id = some e.rank := by
  induction lb with
  | nil => cases he
  | cons a l ih =>
    simp only [lbIds, List.map_cons, List.nodup_cons] at hnd
    rcases List.mem_cons.mp he with he' | he'
    · subst he'
      simp only [lbLookup]
      rw [List.find?_cons_of_pos _ (by simp)]
      rfl
    · have hne : ¬ (a.user_id = e.user_id) := by
        intro hh
        apply hnd.1
        rw [hh]
        exact List.mem_map_of_mem _ he'
      simp only [lbLookup]
      rw [List.find?_cons_of_neg _ (by simpa using hne)]
      exact ih (by simpa [lbIds] using hnd.2) he'

lemma lbLookup_some_mem {lb : List LeaderboardEntry} {uid r : Int}
    (h : lbLookup lb uid = some r) :
    ∃ e ∈ lb, e.user_id = uid ∧ e.rank = r := by
  unfold lbLookup at h
  cases hf : lb.find? (fun e => e.user_id = uid) with
  | none => rw [hf] at h; cases h
  | some e =>
    rw [hf] at h
    refine ⟨e, List.mem_of_find?_eq_some hf, by simpa using List.find?_some hf, ?_⟩
    simpa using h

lemma rankPairs_fst (users : List User) :
    (rankPairs users).map Prod.fst = (rankedUsers users).map User.id := by
  rw [rankPairs, List.map_map]
  have : (Prod.fst ∘ fun p : Nat × User => (p.2.id, (p.1 : Int) + 1)) =
      (User.id ∘ Prod.snd) := rfl
  rw [this, ← List.map_map, List.enum_map_snd]

lemma rankPairs_length (users : List User) :
    (rankPairs users).length = (rankedUsers users).length := by
  simp [rankPairs, List.enum_length]

lemma rankPairs_getElem (users : List User) (i : Nat)
    (h : i < (rankPairs users).length) :
    (rankPairs users)[i] =
      (((rankedUsers users).get ⟨i, by rwa [rankPairs_length] at h⟩).id,
       (i : Int) + 1) := by
  simp only [rankPairs, List.getElem_map, List.getElem_enum,
             List.get_eq_getElem]

/-- Counterexample to C8 as stated: a concrete recompute over two
qualifying users in which the upsert at position 1 fails.  The user at
position 0 — *earlier* in the batch — already received its newly computed
rank (1, replacing the stale 8), while the user at position 1 — *later* in
the batch — still holds its stale pre-recompute rank (9, not the newly
computed 2): exactly the opposite of the claimed direction, because the
sequential loop stops at the first failing upsert. -/
theorem leaderboard_partial_failure_counterexample :
    rankPairs exDbStale.users = [(3, 1), (1, 2)] ∧
    updateLeaderboardRanks (some 1) exDbStale =
      .error { exDbStale with
               leaderboard := [{ user_id := 1, rank := 9 },
                               { user_id := 3, rank := 1 }] } ∧
    lbLookup [{ user_id := 1, rank := 9 }, { user_id := 3, rank := 1 }] 3 =
      some 1 ∧
    lbLookup exDbStale.leaderboard 3 = some 8 ∧
    lbLookup [{ user_id := 1, rank := 9 }, { user_id := 3, rank := 1 }] 1 =
      some 9 := by
  refine ⟨by decide, rfl, by decide, by decide, by decide⟩

/-- C8 amended: if the upsert at position `k` of the descending-score
ordering fails, the loop stops there: users at positions *before* `k` have
already received their newly computed ranks, and users at positions `k` and
*later* keep their stale, pre-recompute ranks. -/
theorem leaderboard_partial_failure_direction
    (db db' : DB) (k : Nat)
    (hnd : ((rankPairs db.users).map Prod.fst).Nodup)
    (hk : k < (rankPairs db.users).length)
    (hrun : updateLeaderboardRanks (some k) db = .error db') :
    (∀ j (hj : j < k),
      lbLookup db'.leaderboard
          (((rankPairs db.users).get ⟨j, lt_trans hj hk⟩).1) =
        some (((rankPairs db.users).get ⟨j, lt_trans hj hk⟩).2)) ∧
    (∀ j (hj : j < (rankPairs db.users).length), k ≤ j →
      lbLookup db'.leaderboard (((rankPairs db.users).get ⟨j, hj⟩).1) =
        lbLookup db.leaderboard (((rankPairs db.users).get ⟨j, hj⟩).1)) := by
  rw [updateLeaderboardRanks_fail db k hk] at hrun
  injection hrun with h
  subst h
  set ps := rankPairs db.users with hps
  have htake_nd : ((ps.take k).map Prod.fst).Nodup := by
    rw [List.map_take]
    exact (List.take_sublist _ _).nodup hnd
  constructor
  · intro j hj
    have hjt : j < (ps.take k).length := by
      rw [List.length_take]
      have := lt_trans hj hk
      omega
    have hmem : ((ps.get ⟨j, lt_trans hj hk⟩).1,
        (ps.get ⟨j, lt_trans hj hk⟩).2) ∈ ps.take k := by
      have heq : (ps.take k).get ⟨j, hjt⟩ = ps.get ⟨j, lt_trans hj hk⟩ := by
        simp [List.get_eq_getElem, List.getElem_take]
      rw [← heq]
      rw [List.get_eq_getElem]
      exact List.getElem_mem hjt
    exact lbLookup_upsertAll_mem (ps.take k) db.leaderboard _ _ htake_nd hmem
  · intro j hj hkj
    apply lbLookup_upsertAll_not_mem
    intro hmemf
    rw [List.map_take] at hmemf
    rcases List.mem_take_iff_getElem.mp hmemf with ⟨i, hi, hieq⟩
    have hi1 : i < (ps.map Prod.fst).length := lt_of_lt_of_le hi (by
      simp [List.length_map])
    have hi2 : i < k := lt_of_lt_of_le hi (min_le_left _ _)
    have hjm : j < (ps.map Prod.fst).length := by simpa using hj
    have : (ps.map Prod.fst)[i] = (ps.map Prod.fst)[j] := by
      rw [hieq]
      simp [List.getElem_map, List.get_eq_getElem]
    have := (List.Nodup.getElem_inj_iff hnd).mp this
    omega

/-- Witness for the amended C8: the concrete failing recompute of the
counterexample, with the loop stopped at position 1. -/
theorem leaderboard_partial_failure_direction_witness :
    (∀ j (hj : j < 1),
      lbLookup ({ exDbStale with
          leaderboard := [{ user_id := 1, rank := 9 },
                          { user_id := 3, rank := 1 }] } : DB).leaderboard
          (((rankPairs exDbStale.users).get
            ⟨j, lt_trans hj (by decide)⟩).1) =
        some (((rankPairs exDbStale.users).get
          ⟨j, lt_trans hj (by decide)⟩).2)) ∧
    (∀ j (hj : j < (rankPairs exDbStale.users).length), 1 ≤ j →
      lbLookup ({ exDbStale with
          leaderboard := [{ user_id := 1, rank := 9 },
                          { user_id := 3, rank := 1 }] } : DB).leaderboard
          (((rankPairs exDbStale.users).get ⟨j, hj⟩).1) =
        lbLookup exDbStale.leaderboard
          (((rankPairs exDbStale.users).get ⟨j, hj⟩).1)) :=
  leaderboard_partial_failure_direction exDbStale
    { exDbStale with leaderboard := [{ user_id := 1, rank := 9 },
                                     { user_id := 3, rank := 1 }] }
    1 (by decide) (by decide) rfl

/-- C2: after every successful leaderboard recompute — given distinct user
ids, distinct leaderboard rows, and the reachability invariant that every
pre-existing leaderboard row belongs to a qualifying user — the leaderboard
holds exactly one entry for each user with `total_play_count > 0` and none
for any other user; the entry of the user at position `i` of the
descending-score ordering holds rank `i + 1`; that ordering is exactly the
qualifying users sorted by descending score, so rank 1 belongs to a
maximum-score qualifying user; and the stored ranks form the dense sequence
`1..N` with no gaps or duplicates. -/
theorem leaderboard_recompute_dense_ranks
    (db db' : DB)
    (hids : (db.users.map User.id).Nodup)
    (hlb : (lbIds db.leaderboard).Nodup)
    (hstale : ∀ e ∈ db.leaderboard,
      e.user_id ∈ (qualifyingUsers db.users).map User.id)
    (hrun : updateLeaderboardRanks none db = .ok db') :
    (∀ uid, uid ∈ lbIds db'.leaderboard ↔
      uid ∈ (qualifyingUsers db.users).map User.id) ∧
    (lbIds db'.leaderboard).Nodup ∧
    (∀ i (hi : i < (rankedUsers db.users).length),
      lbLookup db'.leaderboard ((rankedUsers db.users).get ⟨i, hi⟩).id =
        some ((i : Int) + 1)) ∧
    (rankedUsers db.users).Perm (qualifyingUsers db.users) ∧
    List.Pairwise scoreGe (rankedUsers db.users) ∧
    (∀ hlen : 0 < (rankedUsers db.users).length,
      ∀ u ∈ qualifyingUsers db.users,
        u.total_score ≤ ((rankedUsers db.users).get ⟨0, hlen⟩).total_score) ∧
    (∀ r : Int, (∃ e ∈ db'.leaderboard, e.rank = r) ↔
      1 ≤ r ∧ r ≤ ((rankedUsers db.users).length : Int)) := by
  rw [updateLeaderboardRanks_none] at hrun
  injection hrun with h
  subst h
  have hperm : (rankedUsers db.users).Perm (qualifyingUsers db.users) :=
    List.perm_insertionSort scoreGe _
  have hsorted : List.Pairwise scoreGe (rankedUsers db.users) :=
    List.sorted_insertionSort scoreGe _
  have hqual_nodup : ((qualifyingUsers db.users).map User.id).Nodup :=
    ((List.filter_sublist _).map _).nodup hids
  have hranked_nodup : ((rankedUsers db.users).map User.id).Nodup :=
    ((hperm.map User.id).nodup_iff).mpr hqual_nodup
  have hps_nodup : ((rankPairs db.users).map Prod.fst).Nodup := by
    rw [rankPairs_fst]; exact hranked_nodup
  have hranked_mem : ∀ uid, uid ∈ (rankedUsers db.users).map User.id ↔
      uid ∈ (qualifyingUsers db.users).map User.id :=
    fun uid => (hperm.map User.id).mem_iff
  have hmem : ∀ uid, uid ∈ lbIds (upsertAll db.leaderboard
      (rankPairs db.users)) ↔
      uid ∈ (qualifyingUsers db.users).map User.id := by
    intro uid
    rw [mem_lbIds_upsertAll, rankPairs_fst, hranked_mem]
    constructor
    · rintro (h | h)
      · rcases List.mem_map.mp h with ⟨e, he, hid⟩
        exact hid ▸ hstale e he
      · exact h
    · exact Or.inr
  have hlookup : ∀ i (hi : i < (rankedUsers db.users).length),
      lbLookup (upsertAll db.leaderboard (rankPairs db.users))
        ((rankedUsers db.users).get ⟨i, hi⟩).id = some ((i : Int) + 1) := by
    intro i hi
    have hip : i < (rankPairs db.users).length := by rwa [rankPairs_length]
    apply lbLookup_upsertAll_mem _ _ _ _ hps_nodup
    have := rankPairs_getElem db.users i hip
    have hmem' : (rankPairs db.users)[i] ∈ rankPairs db.users :=
      List.getElem_mem hip
    rwa [this] at hmem'
  have hnodup' : (lbIds (upsertAll db.leaderboard (rankPairs db.users))).Nodup :=
    nodup_lbIds_upsertAll _ _ hlb
  refine ⟨hmem, hnodup', hlookup, hperm, hsorted, ?_, ?_⟩
  · intro hlen u hu
    have humem : u ∈ rankedUsers db.users := hperm.mem_iff.mpr hu
    rcases List.mem_iff_get.mp humem with ⟨⟨j, hj⟩, hjeq⟩
    rcases Nat.eq_zero_or_pos j with hj0 | hj0
    · subst hj0
      rw [hjeq]
    · have := List.pairwise_iff_get.mp hsorted ⟨0, hlen⟩ ⟨j, hj⟩ hj0
      rw [hjeq] at this
      exact this
  · intro r
    constructor
    · rintro ⟨e, he, hrank⟩
      have hin : e.user_id ∈ (qualifyingUsers db.users).map User.id :=
        (hmem e.user_id).mp (List.mem_map_of_mem _ he)
      rcases List.mem_iff_get.mp ((hranked_mem e.user_id).mpr hin)
        with ⟨⟨j, hj⟩, hjeq⟩
      have hjlen : j < (rankedUsers db.users).length := by
        simpa using hj
      have hjid : ((rankedUsers db.users).get ⟨j, hjlen⟩).id = e.user_id := by
        rw [List.get_eq_getElem]
        have h' := hjeq
        rw [List.get_eq_getElem, List.getElem_map] at h'
        exact h'
      have h1 := hlookup j hjlen
      rw [hjid] at h1
      have h2 := lbLookup_mem_self hnodup' he
      rw [h1] at h2
      have hje : r = (j : Int) + 1 := by
        rw [← hrank]
        simpa using h2.symm
      constructor
      · omega
      · have hcast : (j : Int) < ((rankedUsers db.users).length : Int) := by
          exact_mod_cast hjlen
        omega
    · rintro ⟨h1, h2⟩
      have hj : (r - 1).toNat < (rankedUsers db.users).length := by omega
      have hlk := hlookup (r - 1).toNat hj
      have hco : (((r - 1).toNat : Int) + 1) = r := by omega
      rw [hco] at hlk
      rcases lbLookup_some_mem hlk with ⟨e, he, _, hrank⟩
      exact ⟨e, he, hrank⟩

/-- Witness for C2: the recompute over `exDbStale` (two qualifying users
with stale ranks 9 and 8) succeeds and rewrites the board to ranks 1 and 2
in descending-score order. -/
theorem leaderboard_recompute_dense_ranks_witness :
    (∀ uid, uid ∈ lbIds ({ exDbStale with
        leaderboard := [{ user_id := 1, rank := 2 },
                        { user_id := 3, rank := 1 }] } : DB).leaderboard ↔
      uid ∈ (qualifyingUsers exDbStale.users).map User.id) ∧
    (lbIds ({ exDbStale with
        leaderboard := [{ user_id := 1, rank := 2 },
                        { user_id := 3, rank := 1 }] } : DB).leaderboard).Nodup ∧
    (∀ i (hi : i < (rankedUsers exDbStale.users).length),
      lbLookup ({ exDbStale with
          leaderboard := [{ user_id := 1, rank := 2 },
                          { user_id := 3, rank := 1 }] } : DB).leaderboard
          ((rankedUsers exDbStale.users).get ⟨i, hi⟩).id =
        some ((i : Int) + 1)) ∧
    (rankedUsers exDbStale.users).Perm (qualifyingUsers exDbStale.users) ∧
    List.Pairwise scoreGe (rankedUsers exDbStale.users) ∧
    (∀ hlen : 0 < (rankedUsers exDbStale.users).length,
      ∀ u ∈ qualifyingUsers exDbStale.users,
        u.total_score ≤
          ((rankedUsers exDbStale.users).get ⟨0, hlen⟩).total_score) ∧
    (∀ r : Int,
      (∃ e ∈ ({ exDbStale with
          leaderboard := [{ user_id := 1, rank := 2 },
                          { user_id := 3, rank := 1 }] } : DB).leaderboard,
        e.rank = r) ↔
      1 ≤ r ∧ r ≤ ((rankedUsers exDbStale.users).length : Int)) :=
  leaderboard_recompute_dense_ranks exDbStale
    { exDbStale with leaderboard := [{ user_id := 1, rank := 2 },
                                     { user_id := 3, rank := 1 }] }
    (by decide) (by decide) (by decide) rfl

lemma parseQuestion_ok_shape {v : JsonVal} {q : Question}
    (h : parseQuestion v = .ok q) :
    ∃ flds i b s, v = .obj flds ∧
      getField flds "id" = some (.num i) ∧
      getField flds "isCorrect" = some (.bool b) ∧
      getField flds "userAnswer" = some (.str s) := by
  cases v with
  | obj flds =>
    simp only [parseQuestion] at h
    split at h
    · rename_i i c a heq1 heq2 heq3
      exact ⟨flds, i, c, a, rfl, heq1, heq2, heq3⟩
    · cases h
  | null => simp [parseQuestion] at h
  | bool b => simp [parseQuestion] at h
  | num n => simp [parseQuestion] at h
  | str s => simp [parseQuestion] at h
  | arr xs => simp [parseQuestion] at h

lemma parseQuestions_ok_mem {qs : List JsonVal} {out : List Question}
    (h : parseQuestions qs = .ok out) :
    ∀ q ∈ qs, ∃ question, parseQuestion q = .ok question := by
  induction qs generalizing out with
  | nil => intro q hq; cases hq
  | cons v vs ih =>
    intro q hq
    cases hv : parseQuestion v with
    | error e =>
      cases hvs : parseQuestions vs <;>
        simp [parseQuestions, hv, hvs] at h
    | ok question =>
      cases hvs : parseQuestions vs with
      | error e => simp [parseQuestions, hv, hvs] at h
      | ok rest =>
        rcases List.mem_cons.mp hq with rfl | hq'
        · exact ⟨question, hv⟩
        · exact ih hvs q hq'

lemma quizSchemaParse_ok_questions {fields : List (String × JsonVal)}
    {p : QuizPayload} (h : quizSchemaParse (.obj fields) = .ok p) :
    ∃ qs, getField fields "questions" = some (.arr qs) ∧
      parseQuestions qs = .ok p.questions := by
  simp only [quizSchemaParse] at h
  split at h
  · rename_i cat tot cor inc sc qs heq1 heq2 heq3 heq4 heq5 heq6
    cases hqs : parseQuestions qs with
    | error e => rw [hqs] at h; cases h
    | ok questions =>
      rw [hqs] at h
      refine ⟨qs, heq6, ?_⟩
      have hp : p.questions = questions := by
        injection h with h'
        rw [← h']
      rw [hp, hqs]
  · cases h

/-- Counterexample to C7 as stated: the `questions` field of `quizSchema`
is a bare `z.array(...)` with no `.min(1)`/`.nonempty()`, so a payload with
an empty question list passes validation, and the submission is recorded:
`POST` succeeds and creates the quiz row. -/
theorem empty_questions_accepted_counterexample :
    quizSchemaParse exBodyEmptyQuestions =
      .ok { categoryId := 4, totalQuestions := 0, correctAnswers := 0,
            incorrectAnswers := 0, score := 0, questions := [] } ∧
    (POST (exEnv exBodyEmptyQuestions) noFailures 1000 exDb).1 =
      .success 1 ∧
    (POST (exEnv exBodyEmptyQuestions) noFailures 1000 exDb).2.quizzes.length
      = 1 := by
  refine ⟨rfl, by decide, by decide⟩

/-- C7 amended: the validator *accepts* an empty per-question list (it
imposes no non-emptiness requirement); the typing half of the claim does
hold — in every accepted payload, each entry of the raw `questions` array
has a numeric `id`, a boolean `isCorrect` flag, and a string `userAnswer`. -/
theorem quizSchema_questions_typing
    (fields : List (String × JsonVal)) (p : QuizPayload)
    (hok : quizSchemaParse (.obj fields) = .ok p) :
    (∀ cat tot cor inc sc : Int,
      quizSchemaParse (.obj [("categoryId", .num cat),
        ("totalQuestions", .num tot), ("correctAnswers", .num cor),
        ("incorrectAnswers", .num inc), ("score", .num sc),
        ("questions", .arr [])]) =
        .ok { categoryId := cat, totalQuestions := tot,
              correctAnswers := cor, incorrectAnswers := inc, score := sc,
              questions := [] }) ∧
    ∃ qs, getField fields "questions" = some (.arr qs) ∧
      ∀ q ∈ qs, ∃ flds i b s, q = .obj flds ∧
        getField flds "id" = some (.num i) ∧
        getField flds "isCorrect" = some (.bool b) ∧
        getField flds "userAnswer" = some (.str s) := by
  constructor
  · intro cat tot cor inc sc
    rfl
  · rcases quizSchemaParse_ok_questions hok with ⟨qs, hget, hparse⟩
    refine ⟨qs, hget, ?_⟩
    intro q hq
    rcases parseQuestions_ok_mem hparse q hq with ⟨question, hquestion⟩
    exact parseQuestion_ok_shape hquestion

/-- Witness for the amended C7: instantiated on the concrete two-question
payload `exBody`. -/
theorem quizSchema_questions_typing_witness :
    (∀ cat tot cor inc sc : Int,
      quizSchemaParse (.obj [("categoryId", .num cat),
        ("totalQuestions", .num tot), ("correctAnswers", .num cor),
        ("incorrectAnswers", .num inc), ("score", .num sc),
        ("questions", .arr [])]) =
        .ok { categoryId := cat, totalQuestions := tot,
              correctAnswers := cor, incorrectAnswers := inc, score := sc,
              questions := [] }) ∧
    ∃ qs, getField [("categoryId", JsonVal.num 4),
        ("totalQuestions", JsonVal.num 2), ("correctAnswers", JsonVal.num 1),
        ("incorrectAnswers", JsonVal.num 1), ("score", JsonVal.num 50),
        ("questions", JsonVal.arr
          [.obj [("id", JsonVal.num 7), ("isCorrect", JsonVal.bool true),
                 ("userAnswer", JsonVal.str "A")],
           .obj [("id", JsonVal.num 8), ("isCorrect", JsonVal.bool false),
                 ("userAnswer", JsonVal.str "C")]])] "questions" =
      some (.arr qs) ∧
      ∀ q ∈ qs, ∃ flds i b s, q = .obj flds ∧
        getField flds "id" = some (.num i) ∧
        getField flds "isCorrect" = some (.bool b) ∧
        getField flds "userAnswer" = some (.str s) :=
  quizSchema_questions_typing [("categoryId", JsonVal.num 4),
    ("totalQuestions", JsonVal.num 2), ("correctAnswers", JsonVal.num 1),
    ("incorrectAnswers", JsonVal.num 1), ("score", JsonVal.num 50),
    ("questions", JsonVal.arr
      [.obj [("id", JsonVal.num 7), ("isCorrect", JsonVal.bool true),
             ("userAnswer", JsonVal.str "A")],
       .obj [("id", JsonVal.num 8), ("isCorrect", JsonVal.bool false),
             ("userAnswer", JsonVal.str "C")]])] exPayload rfl
